import Mathlib

/-!
Verification development for the `dissect.disc` optical-disc filesystem
library.  The definitions below are shallow embeddings of the Python source
under `dissect/disc/`: pure functions become Lean functions, stateful loops
become explicit recursion, machine integers become `Nat` (with explicit
modular arithmetic where overflow matters), and fallible code returns
`Except`.  Each section names the source function it embeds.
-/

namespace DissectDisc

/-- Python exception classes raised by the library.  The library raises
builtin exceptions (`ValueError`, `KeyError`, `NotImplementedError`,
`EOFError` via `dissect.cstruct`) as well as its own `FileNotFoundError`,
`NotADirectoryError`, `NotAFileError` style classes. -/
inductive PyError where
  | valueError
  | keyError
  | notImplementedError
  | typeError
  | eofError
  | fileNotFoundError
  | notADirectoryError
  | notAFileError
deriving DecidableEq

/-- Decidable equality of `Except` results, used to evaluate the embedded
functions on concrete inputs. -/
instance {ε α : Type} [DecidableEq ε] [DecidableEq α] : DecidableEq (Except ε α)
  | .error e, .error f =>
    if h : e = f then .isTrue (by rw [h])
    else .isFalse (by intro hh; cases hh; exact h rfl)
  | .error _, .ok _ => .isFalse (by intro hh; cases hh)
  | .ok _, .error _ => .isFalse (by intro hh; cases hh)
  | .ok a, .ok b =>
    if h : a = b then .isTrue (by rw [h])
    else .isFalse (by intro hh; cases hh; exact h rfl)

/-- Python dict assignment `d[k] = v` on an association list: update the
binding in place when the key exists, otherwise append it. -/
def pyDictSet {κ α : Type} [DecidableEq κ] : List (κ × α) → κ → α → List (κ × α)
  | [], k, v => [(k, v)]
  | kv :: rest, k, v => if kv.1 = k then (k, v) :: rest else kv :: pyDictSet rest k v

/-- Python dict lookup `d[k]` / `k in d` on an association list. -/
def pyDictGet? {κ α : Type} [DecidableEq κ] (d : List (κ × α)) (k : κ) : Option α :=
  (d.find? (fun kv => decide (kv.1 = k))).map (fun kv => kv.2)

/-! ## C1: format selection (`dissect/disc/disc.py`, `DISC._select_format`)

The `ISOFormat` enum and `DEFAULT_FORMAT_PREFERENCE_ORDER` are embedded from
`disc.py` lines 35-45; `selectFormat` embeds `DISC._select_format`
(lines 197-223).  `available fmt` models `self.primary_volumes[fmt] is not
None`.  Note the enum in the source has no UDF member at all. -/

inductive ISOFormat where
  | PLAIN
  | ROCKRIDGE
  | JOLIET
deriving DecidableEq

/-- Embeds `DEFAULT_FORMAT_PREFERENCE_ORDER` from `disc.py` lines 41-45. -/
def DEFAULT_FORMAT_PREFERENCE_ORDER : List ISOFormat :=
  [ISOFormat.ROCKRIDGE, ISOFormat.JOLIET, ISOFormat.PLAIN]

/-- Embeds `DISC._select_format`: use the preference when it is given and
available, otherwise take the first available format of the default order;
`none` models the `ValueError` when nothing is selectable. -/
def selectFormat (preference : Option ISOFormat) (available : ISOFormat → Bool) :
    Option ISOFormat :=
  match preference with
  | some p =>
      if available p then some p
      else DEFAULT_FORMAT_PREFERENCE_ORDER.find? available
  | none => DEFAULT_FORMAT_PREFERENCE_ORDER.find? available

/-! ## C2: Rock Ridge PX uid/gid (`dissect/disc/iso/rockridge.py` lines 317-331)

`RR_PX` embeds the `RR_PX_s` structure of `iso/c_rockridge.py` (fields in
on-disc order: mode, links, uid, gid; the big-endian shadow copies are
omitted).  The `uid`/`gid` properties of `RockRidgeDirectoryRecord` fall
back to the plain ISO 9660 getters when no PX entry is present. -/

structure RR_PX where
  mode : Nat
  links : Nat
  uid : Nat
  gid : Nat
deriving DecidableEq

/-- Embeds `ISO9660DirectoryRecord.uid` (`iso/iso9660.py` lines 237-241). -/
def iso9660Uid (ext_attr_length : Nat) : Except PyError Nat :=
  if ext_attr_length = 0 then .ok 0 else .error .notImplementedError

/-- Embeds `ISO9660DirectoryRecord.gid` (`iso/iso9660.py` lines 243-247). -/
def iso9660Gid (ext_attr_length : Nat) : Except PyError Nat :=
  if ext_attr_length = 0 then .ok 0 else .error .notImplementedError

/-- Embeds `RockRidgeDirectoryRecord.uid` (`iso/rockridge.py` lines 325-331):
when a PX entry is present the source returns `self._posix_entry.gid`. -/
def rockridgeUid (posixEntry : Option RR_PX) (ext_attr_length : Nat) : Except PyError Nat :=
  match posixEntry with
  | some px => .ok px.gid
  | none => iso9660Uid ext_attr_length

/-- Embeds `RockRidgeDirectoryRecord.gid` (`iso/rockridge.py` lines 317-323):
when a PX entry is present the source returns `self._posix_entry.uid`. -/
def rockridgeGid (posixEntry : Option RR_PX) (ext_attr_length : Nat) : Except PyError Nat :=
  match posixEntry with
  | some px => .ok px.uid
  | none => iso9660Gid ext_attr_length

/-! ## C5: UDF sparable partition (`dissect/disc/udf/udf.py` lines 396-443) -/

/-- The fields of a `UDFPartition` used by `open_extent`: the physical
partition's starting location and the disc's sector size. -/
structure UDFPartitionInfo where
  partition_starting_location : Nat
  sector_size : Nat
deriving DecidableEq

/-- Embeds `UDFPartition.open_extent` (`udf/udf.py` lines 403-406): the
returned pair is the `(offset, size)` of the `RangeStream` it constructs. -/
def udfOpenExtent (p : UDFPartitionInfo) (logical_block_num length : Nat) :
    Except PyError (Nat × Nat) :=
  .ok (p.partition_starting_location * p.sector_size + logical_block_num * p.sector_size,
       length)

/-- Embeds `UDFSparablePartition.open_extent` (`udf/udf.py` lines 439-443).
The source tests membership of the block both among the keys and among the
values of `self.remappings`, then evaluates `self.remappings[logical_block_num]`
(which raises `KeyError` when the block is only a mapped value) before
raising `NotImplementedError`. -/
def sparableOpenExtent (p : UDFPartitionInfo) (remappings : List (Nat × Nat))
    (logical_block_num length : Nat) : Except PyError (Nat × Nat) :=
  if (remappings.any (fun kv => kv.1 == logical_block_num)) ||
      (remappings.any (fun kv => kv.2 == logical_block_num)) then
    match pyDictGet? remappings logical_block_num with
    | none => .error .keyError
    | some _ => .error .notImplementedError
  else udfOpenExtent p logical_block_num length

/-! ## C6: UDF volume descriptor sequence (`dissect/disc/udf/udf.py` lines 105-142) -/

/-- Shape of one descriptor in the volume descriptor sequence, identified by
its tag: PVD, LVD, PD (with its partition number), TD, or any other tag. -/
inductive UdfVolumeDescriptor where
  | pvd
  | lvd
  | pd (partition_number : Nat)
  | td
  | other
deriving DecidableEq

/-- Loop body of `UDFDisc._load_volume_descriptors` (lines 117-142): walk the
descriptor sequence, collect partition descriptors into a dict keyed by
partition number, stop at the Terminating Descriptor, then require a Logical
Volume Descriptor and a nonempty partition dict.  On success the list of
registered partition numbers is returned.  Running off the end of the
sequence models the `EOFError` cstruct raises past the end of the image. -/
def loadVolumeDescriptorsLoop :
    List UdfVolumeDescriptor → Bool → List (Nat × Unit) → Except PyError (List Nat)
  | [], _, _ => .error .eofError
  | d :: rest, lvdSeen, pdMap =>
    match d with
    | .pvd => loadVolumeDescriptorsLoop rest lvdSeen pdMap
    | .lvd => loadVolumeDescriptorsLoop rest true pdMap
    | .pd n =>
        if pdMap.length > 1 then .error .notImplementedError
        else loadVolumeDescriptorsLoop rest lvdSeen (pyDictSet pdMap n ())
    | .td =>
        if lvdSeen = false then .error .valueError
        else if pdMap.isEmpty then .error .valueError
        else .ok (pdMap.map (fun kv => kv.1))
    | .other => loadVolumeDescriptorsLoop rest lvdSeen pdMap

/-- Embeds `UDFDisc._load_volume_descriptors` starting from an empty
partition map and no Logical Volume Descriptor. -/
def loadVolumeDescriptors (descriptors : List UdfVolumeDescriptor) :
    Except PyError (List Nat) :=
  loadVolumeDescriptorsLoop descriptors false []

/-! ## C8: UDF mode assembly (`dissect/disc/udf/udf.py` lines 346-362) -/

/-- Embeds the `udf_icb_tag_flags` bit-field of `udf/c_udf.py` (lines
235-249): `allocation_type` occupies bits 0-2, then one flag per bit. -/
structure UdfIcbTagFlags where
  allocation_type : Nat
  sort_directory : Bool
  non_relocatable : Bool
  archive : Bool
  S_ISUID : Bool
  S_ISGID : Bool
  C_ISVTX : Bool
  contiguous : Bool
  system : Bool
  transformed : Bool
  multi_versions : Bool
  stream : Bool
deriving DecidableEq

/-- Decodes a raw little-endian `uint16` flags word into the bit-field
structure, following the field order of `udf_icb_tag_flags`. -/
def parseUdfIcbTagFlags (w : Nat) : UdfIcbTagFlags where
  allocation_type := w % 8
  sort_directory := w.testBit 3
  non_relocatable := w.testBit 4
  archive := w.testBit 5
  S_ISUID := w.testBit 6
  S_ISGID := w.testBit 7
  C_ISVTX := w.testBit 8
  contiguous := w.testBit 9
  system := w.testBit 10
  transformed := w.testBit 11
  multi_versions := w.testBit 12
  stream := w.testBit 13

/-- Embeds `UDFEntry.mode` (`udf/udf.py` lines 346-362).  `stat.S_ISUID`,
`stat.S_ISGID` and `stat.S_ISVTX` are the CPython constants 0o4000, 0o2000
and 0o1000. -/
def udfMode (flags : UdfIcbTagFlags) (permissions : Nat) : Nat :=
  let isuid := if flags.S_ISUID then 0o4000 else 0
  let isgid := if flags.S_ISGID then 0o2000 else 0
  let isvt := if flags.C_ISVTX then 0o1000 else 0
  ((((permissions &&& 0o007) |||
      ((permissions >>> 2) &&& 0o0070)) |||
      ((permissions >>> 4) &&& 0o0700)) ||| isuid ||| isgid) ||| isvt

/-- Mode formula as worded by the specification (section 4.5): rearrange the
stored permission bits and OR in the special bits exactly when the
corresponding ICB tag flags are set. -/
def specUdfMode (perm : Nat) (setuid setgid sticky : Bool) : Nat :=
  ((((perm &&& 0o007) |||
      ((perm >>> 2) &&& 0o070)) |||
      ((perm >>> 4) &&& 0o700)) |||
    (if setuid then 0o4000 else 0) |||
    (if setgid then 0o2000 else 0)) |||
    (if sticky then 0o1000 else 0)

/-! ## C10: UDF iterdir guard (`dissect/disc/udf/udf.py` lines 246-257) -/

/-- Embeds the `udf_icb_file_type` enum of `udf/c_udf.py` (line 225-227). -/
inductive UdfIcbFileType where
  | UNDEF
  | USE
  | PIE
  | IE
  | DIRECTORY
  | REGULAR
  | BLOCK
  | CHAR
  | EA
  | FIFO
  | SOCKET
  | TE
  | SYMLINK
  | STREAMDIR
deriving DecidableEq

/-- The part of a `UDFEntry` consulted before any directory data is read. -/
structure UDFEntryInfo where
  file_type : UdfIcbFileType
deriving DecidableEq

/-- Embeds `UDFEntry.__init__` line 212: `self.is_dir` compares the ICB tag
file type against `DIRECTORY`. -/
def udfEntryIsDir (e : UDFEntryInfo) : Bool :=
  e.file_type == UdfIcbFileType.DIRECTORY

/-- Embeds `UDFEntry.iterdir` (lines 246-257): the guard raises
`NotADirectoryError` before the stream is opened.  The remainder of the
method (opening the stream and parsing file identifier descriptors) is
abstracted as the `readDirectoryData` argument, so the theorem quantifying
over it shows the error is raised no matter what the directory data holds. -/
def udfIterdir (e : UDFEntryInfo)
    (readDirectoryData : Unit → Except PyError (List UDFEntryInfo)) :
    Except PyError (List UDFEntryInfo) :=
  if udfEntryIsDir e = false then .error .notADirectoryError
  else readDirectoryData ()

/-! ## ISO 9660 directory records (`dissect/disc/c_iso_9660.py`,
`dissect/disc/iso/iso9660.py`)

These definitions are shared by C3, C4 and C9. -/

/-- Embeds the 7-byte `iso_directory_record_datetime` / `datetime_short`
structure: six unsigned bytes plus a signed `int8` timezone offset. -/
structure IsoDirRecDateTime where
  year : Nat
  month : Nat
  day : Nat
  hour : Nat
  minute : Nat
  second : Nat
  offset : Int
deriving DecidableEq

/-- Embeds the `iso_directory_record` structure of `c_iso_9660.py` (the
big-endian shadow fields are omitted; `length` is both the value of the
first byte and the total size consumed by the parser). -/
structure IsoDirectoryRecord where
  length : Nat
  ext_attr_length : Nat
  extent : Nat
  size : Nat
  date_time : IsoDirRecDateTime
  flags : Nat
  file_unit_size : Nat
  interleave : Nat
  volume_sequence_number : Nat
  name : List Nat
  system_use : List Nat
deriving DecidableEq

/-- Embeds `bool(record.flags.Directory)`: bit 1 of the flags byte. -/
def isoRecordIsDir (r : IsoDirectoryRecord) : Bool :=
  r.flags.testBit 1

/-- Result of Python `datetime(...)` as constructed by
`parse_iso9660_timestamp`: calendar fields plus the timezone offset in
minutes. -/
structure PyDatetime where
  year : Nat
  month : Nat
  day : Nat
  hour : Nat
  minute : Nat
  second : Nat
  tzOffsetMinutes : Int
deriving DecidableEq

/-- Embeds `parse_iso9660_timestamp` (`iso/iso9660.py` lines 250-261):
year + 1900 and a timezone of `offset * 15` minutes. -/
def parseIso9660Timestamp (dt : IsoDirRecDateTime) : PyDatetime where
  year := dt.year + 1900
  month := dt.month
  day := dt.day
  hour := dt.hour
  minute := dt.minute
  second := dt.second
  tzOffsetMinutes := dt.offset * 15

/-- Embeds `ISO9660DirectoryRecord.ctime` (`iso/iso9660.py` lines 216-219). -/
def iso9660Ctime (r : IsoDirectoryRecord) : PyDatetime :=
  parseIso9660Timestamp r.date_time

/-- Embeds `ISO9660DirectoryRecord.mtime` (`iso/iso9660.py` lines 221-224). -/
def iso9660Mtime (r : IsoDirectoryRecord) : PyDatetime :=
  parseIso9660Timestamp r.date_time

/-- Embeds `ISO9660DirectoryRecord.atime` (`iso/iso9660.py` lines 226-229). -/
def iso9660Atime (r : IsoDirectoryRecord) : PyDatetime :=
  parseIso9660Timestamp r.date_time

/-- Embeds `ISO9660DirectoryRecord.mode` (`iso/iso9660.py` lines 231-235). -/
def iso9660Mode (r : IsoDirectoryRecord) : Except PyError Nat :=
  if r.ext_attr_length = 0 then .ok 0o644 else .error .notImplementedError

/-- Record-level wrapper of `ISO9660DirectoryRecord.uid`. -/
def iso9660RecordUid (r : IsoDirectoryRecord) : Except PyError Nat :=
  iso9660Uid r.ext_attr_length

/-- Record-level wrapper of `ISO9660DirectoryRecord.gid`. -/
def iso9660RecordGid (r : IsoDirectoryRecord) : Except PyError Nat :=
  iso9660Gid r.ext_attr_length

/-- Embeds `DiscBaseEntry.nlinks` (`base.py` lines 112-115). -/
def discBaseNlinks (_ : IsoDirectoryRecord) : Nat := 1

/-- Embeds `DiscBaseEntry.inode` (`base.py` lines 117-120). -/
def discBaseInode (_ : IsoDirectoryRecord) : Nat := 0

/-! ## C3: Rock Ridge TF timestamps (`dissect/disc/iso/rockridge.py` lines 164-224) -/

/-- Embeds the flag byte of the `RR_TF_s` structure (`iso/c_rockridge.py`
lines 96-108): one bit per timestamp kind, in on-disc order, plus the
`LONG_FORM` selector. -/
structure RRTFFlags where
  CREATION : Bool
  MODIFY : Bool
  ACCESS : Bool
  ATTRIBUTES : Bool
  BACKUP : Bool
  EXPIRATION : Bool
  EFFECTIVE : Bool
  LONG_FORM : Bool
deriving DecidableEq

/-- Decode a signed `int8` byte to an integer, as cstruct does. -/
def int8 (b : Nat) : Int :=
  if b < 128 then (b : Int) else (b : Int) - 256

/-- Parse the 7-byte short-form timestamp (`c_iso.datetime_short`). -/
def parseDatetimeShort (bytes : List Nat) : IsoDirRecDateTime where
  year := bytes.getD 0 0
  month := bytes.getD 1 0
  day := bytes.getD 2 0
  hour := bytes.getD 3 0
  minute := bytes.getD 4 0
  second := bytes.getD 5 0
  offset := int8 (bytes.getD 6 0)

/-- Embeds the gap-construction loop of
`RockRidgeDirectoryRecord._resolve_timestamps` (`iso/rockridge.py` lines
189-198): walk the seven flags keeping `(gaps, gap_size, timestamp_index)`;
a disabled flag grows the pending gap, an enabled flag records the pending
gap (if any) keyed by `timestamp_index` and only then increments
`timestamp_index`. -/
def tfGapsBuild (m : RRTFFlags) : List (Nat × Nat) :=
  let flags := [m.CREATION, m.MODIFY, m.ACCESS, m.ATTRIBUTES,
                m.BACKUP, m.EXPIRATION, m.EFFECTIVE]
  (flags.foldl
    (fun st flag =>
      if flag = false then (st.1, st.2.1 + 1, st.2.2)
      else if st.2.1 > 0 then (pyDictSet st.1 st.2.2 st.2.1, 0, st.2.2 + 1)
      else st)
    (([] : List (Nat × Nat)), 0, 0)).1

/-- Embeds the value-consumption loop of `_resolve_timestamps` (lines
202-224).  The state is the unread tail of the values buffer, the
`effective_index` and `timestamp_index` counters, and the accumulated
`timestamps` dict keyed by the `RockRidgeTimestampType` value.  A long-form
entry parses as `dec_datetime` (whose `year` field is raw bytes), so
`parse_iso9660_timestamp` raises `TypeError` on it; an `effective_index`
past 6 makes `RockRidgeTimestampType(effective_index)` raise `ValueError`;
a truncated value raises `EOFError` inside cstruct. -/
def resolveTimestampsLoopFuel (m : RRTFFlags) (gaps : List (Nat × Nat)) :
    Nat → List Nat → Nat → Nat → List (Nat × PyDatetime) →
    Except PyError (List (Nat × PyDatetime))
  | 0, _, _, _, _ => .error .eofError
  | _ + 1, [], _, _, acc => .ok acc
  | fuel + 1, v :: rest, effectiveIndex, timestampIndex, acc =>
    let effectiveIndex :=
      match pyDictGet? gaps timestampIndex with
      | some gap => effectiveIndex + gap
      | none => effectiveIndex
    if m.LONG_FORM then
      if (v :: rest).length < 17 then .error .eofError else .error .typeError
    else
      if (v :: rest).length < 7 then .error .eofError
      else
        let ts := parseIso9660Timestamp (parseDatetimeShort ((v :: rest).take 7))
        if effectiveIndex ≥ 7 then .error .valueError
        else
          resolveTimestampsLoopFuel m gaps fuel ((v :: rest).drop 7)
            (effectiveIndex + 1) (timestampIndex + 1)
            (pyDictSet acc effectiveIndex ts)

/-- Value-consumption loop of `_resolve_timestamps`: every iteration that
recurses consumes seven bytes of the values buffer, so `values.length + 1`
fuel always runs the loop to completion and the fuel-exhausted branch is
unreachable. -/
def resolveTimestampsLoop (m : RRTFFlags) (gaps : List (Nat × Nat))
    (values : List Nat) (effectiveIndex timestampIndex : Nat)
    (acc : List (Nat × PyDatetime)) : Except PyError (List (Nat × PyDatetime)) :=
  resolveTimestampsLoopFuel m gaps (values.length + 1) values
    effectiveIndex timestampIndex acc

/-- Embeds `RockRidgeDirectoryRecord._resolve_timestamps` on the split TF
entry: the parsed flag byte plus the raw bytes that follow it. -/
def resolveTimestamps (m : RRTFFlags) (values : List Nat) :
    Except PyError (List (Nat × PyDatetime)) :=
  resolveTimestampsLoop m (tfGapsBuild m) values 0 0 []

/-- Embeds `RockRidgeDirectoryRecord.mtime` (lines 282-289):
`RockRidgeTimestampType.MODIFY` has value 1; fall back to the single
ISO 9660 timestamp when it is not in the resolved dict. -/
def rockridgeMtime (tfEntry : Option (RRTFFlags × List Nat))
    (record_date_time : IsoDirRecDateTime) : Except PyError PyDatetime :=
  match tfEntry with
  | none => .ok (parseIso9660Timestamp record_date_time)
  | some (m, values) =>
    match resolveTimestamps m values with
    | .error e => .error e
    | .ok timestamps =>
      match pyDictGet? timestamps 1 with
      | some ts => .ok ts
      | none => .ok (parseIso9660Timestamp record_date_time)

/-- Embeds `RockRidgeDirectoryRecord.ctime` (lines 291-298):
`RockRidgeTimestampType.ATTRIBUTES` has value 3. -/
def rockridgeCtime (tfEntry : Option (RRTFFlags × List Nat))
    (record_date_time : IsoDirRecDateTime) : Except PyError PyDatetime :=
  match tfEntry with
  | none => .ok (parseIso9660Timestamp record_date_time)
  | some (m, values) =>
    match resolveTimestamps m values with
    | .error e => .error e
    | .ok timestamps =>
      match pyDictGet? timestamps 3 with
      | some ts => .ok ts
      | none => .ok (parseIso9660Timestamp record_date_time)

/-- Embeds `RockRidgeDirectoryRecord.atime` (lines 300-307):
`RockRidgeTimestampType.ACCESS` has value 2. -/
def rockridgeAtime (tfEntry : Option (RRTFFlags × List Nat))
    (record_date_time : IsoDirRecDateTime) : Except PyError PyDatetime :=
  match tfEntry with
  | none => .ok (parseIso9660Timestamp record_date_time)
  | some (m, values) =>
    match resolveTimestamps m values with
    | .error e => .error e
    | .ok timestamps =>
      match pyDictGet? timestamps 2 with
      | some ts => .ok ts
      | none => .ok (parseIso9660Timestamp record_date_time)

/-- List of flag-bit indices that are enabled, in on-disc order. -/
def tfEnabledIndices (m : RRTFFlags) : List Nat :=
  (List.zip [0, 1, 2, 3, 4, 5, 6]
    [m.CREATION, m.MODIFY, m.ACCESS, m.ATTRIBUTES,
     m.BACKUP, m.EXPIRATION, m.EFFECTIVE]).filterMap
    (fun p => if p.2 then some p.1 else none)

/-- Cut the TF values buffer into consecutive 7-byte short-form timestamps
and parse each one. -/
def tfShortFormValuesFuel : Nat → List Nat → List PyDatetime
  | 0, _ => []
  | _ + 1, [] => []
  | fuel + 1, v :: rest =>
    parseIso9660Timestamp (parseDatetimeShort ((v :: rest).take 7)) ::
      tfShortFormValuesFuel fuel ((v :: rest).drop 7)

/-- Wrapper passing always-sufficient fuel (seven bytes are consumed per
step). -/
def tfShortFormValues (values : List Nat) : List PyDatetime :=
  tfShortFormValuesFuel (values.length + 1) values

/-- Timestamp assignment as worded by the specification and the claim: the
k-th timestamp value in the payload belongs to the k-th enabled flag of the
ordered flag list. -/
def specTimestampAssignment (m : RRTFFlags) (values : List Nat) :
    List (Nat × PyDatetime) :=
  List.zip (tfEnabledIndices m) (tfShortFormValues values)

/-! ## C7: SUSP system-use buffer scanning
(`dissect/disc/iso/rockridge.py` lines 57-91) -/

/-- Embeds the generic `rock_ridge_entry` structure of `iso/c_rockridge.py`
(lines 117-122): 2-byte signature, length byte covering the whole entry,
version byte, and `len - 4` data bytes. -/
structure SystemUseEntry where
  signature : List Nat
  len : Nat
  version : Nat
  data : List Nat
deriving DecidableEq

/-- Parse a `rock_ridge_entry` from the head of a buffer.  cstruct raises
when fewer than four header bytes remain, when `len - 4` is negative, or
when fewer than `len` bytes remain. -/
def parseRockRidgeEntry (buf : List Nat) : Option SystemUseEntry :=
  if buf.length < 4 then none
  else
    let len := buf.getD 2 0
    if len < 4 then none
    else if buf.length < len then none
    else some { signature := buf.take 2, len := len, version := buf.getD 3 0,
                data := (buf.drop 4).take (len - 4) }

/-- Embeds the inner scanning loop of
`SystemUseSharingProtocolDirectoryRecord._process_system_use_area` (lines
72-91) over one logical buffer (a System Use Area or a continuation area).
The source stops when `byte_copy[offset:] == b"\\x00"`, i.e. only when the
remaining buffer is exactly one null byte; otherwise it parses an entry at
the current offset and advances by the entry's length.  A `CE` entry also
enqueues a continuation buffer, which this single-buffer loop does not need
to model: each enqueued buffer is scanned by this same loop. -/
def scanSystemUseBufferFuel (buf : List Nat) : Nat → Nat →
    Except PyError (List SystemUseEntry)
  | 0, _ => .error .eofError
  | fuel + 1, offset =>
    if offset < buf.length then
      if buf.drop offset = [0] then .ok []
      else
        match parseRockRidgeEntry (buf.drop offset) with
        | none => .error .eofError
        | some e =>
          match scanSystemUseBufferFuel buf fuel (offset + e.len) with
          | .ok rest => .ok (e :: rest)
          | .error err => .error err
    else .ok []

/-- Wrapper passing always-sufficient fuel: every parsed entry has
`len ≥ 4`, so the offset strictly increases and at most `buf.length`
iterations recurse. -/
def scanSystemUseBuffer (buf : List Nat) (offset : Nat) :
    Except PyError (List SystemUseEntry) :=
  scanSystemUseBufferFuel buf (buf.length + 1) offset

/-- Scanning rule as worded by the specification ("a zero byte ends the
buffer") and by the claim: stop at the first offset holding a zero byte. -/
def specScanSystemUseBufferFuel (buf : List Nat) : Nat → Nat →
    Except PyError (List SystemUseEntry)
  | 0, _ => .error .eofError
  | fuel + 1, offset =>
    if offset < buf.length then
      if buf.getD offset 0 = 0 then .ok []
      else
        match parseRockRidgeEntry (buf.drop offset) with
        | none => .error .eofError
        | some e =>
          match specScanSystemUseBufferFuel buf fuel (offset + e.len) with
          | .ok rest => .ok (e :: rest)
          | .error err => .error err
    else .ok []

/-- Wrapper passing always-sufficient fuel, as for the source variant. -/
def specScanSystemUseBuffer (buf : List Nat) (offset : Nat) :
    Except PyError (List SystemUseEntry) :=
  specScanSystemUseBufferFuel buf (buf.length + 1) offset

/-! ## C4: ISO 9660 path lookup (`dissect/disc/iso/iso9660.py` lines 50-132,
`dissect/disc/iso/rockridge.py` lines 31-162 and 275-280)

The disc image is modelled as the byte list `fh`; `read`/`seek` become
`List.drop`/`List.take`.  Name decoding (`bytes.decode(self.encoding)`) is
the Python codec machinery, kept abstract as the `decodeName` field of the
disc model; Joliet is the same reader with a different codec.  The
Rock Ridge reader (`RockridgeDisc`) overrides `make_record`, so each parsed
record is wrapped into a `RockRidgeDirectoryRecord`: its System Use Area is
scanned (following `CE` continuation areas), its name is overridden by the
`NM` entries, a `CL` child link re-binds it to the record at another
extent, and `iterdir` skips children carrying an `RE` entry.  The `rockridge`
flag of the disc model selects which wrapping `make_record` performs; both
lookup modes, the walk and the listing are stated over the wrapped
entries. -/

/-- Little-endian `uint16` read at an index of a byte list. -/
def le16At (bs : List Nat) (i : Nat) : Nat :=
  bs.getD i 0 + 256 * bs.getD (i + 1) 0

/-- Little-endian `uint32` read at an index of a byte list. -/
def le32At (bs : List Nat) (i : Nat) : Nat :=
  bs.getD i 0 + 256 * bs.getD (i + 1) 0 + 65536 * bs.getD (i + 2) 0 +
    16777216 * bs.getD (i + 3) 0

/-- Parse an `iso_directory_record` from the head of a byte list, following
the field layout of `c_iso_9660.py`: header bytes 0-32, `name_len` at byte
32, `name_len` name bytes from byte 33, then `length - name_len - 33`
system-use bytes.  cstruct raises when the fixed fields run past the end of
the buffer, when the system-use count is negative, or when fewer than
`length` bytes are available in total. -/
def parseIsoDirectoryRecord (buf : List Nat) : Option IsoDirectoryRecord :=
  if buf.length < 33 then none
  else
    let len := buf.getD 0 0
    let nameLen := buf.getD 32 0
    if len < 33 + nameLen then none
    else if buf.length < len then none
    else some
      { length := len
        ext_attr_length := buf.getD 1 0
        extent := le32At buf 2
        size := le32At buf 10
        date_time :=
          { year := buf.getD 18 0, month := buf.getD 19 0, day := buf.getD 20 0,
            hour := buf.getD 21 0, minute := buf.getD 22 0, second := buf.getD 23 0,
            offset := int8 (buf.getD 24 0) }
        flags := buf.getD 25 0
        file_unit_size := buf.getD 26 0
        interleave := buf.getD 27 0
        volume_sequence_number := le16At buf 28
        name := (buf.drop 33).take nameLen
        system_use := (buf.drop (33 + nameLen)).take (len - 33 - nameLen) }

/-- The fields of `iso_primary_descriptor` used by `get`, `path_table` and
the root record. -/
structure IsoPrimaryVolume where
  logical_block_size : Nat
  path_table_size : Nat
  type_l_path_table : Nat
  root_directory_record : List Nat

/-- Model of an `ISO9660Disc`: the byte source, the primary volume fields,
the configured name codec (`utf-8` for plain ISO 9660, `utf-16-be` for
Joliet) kept abstract as a decoding function, and whether the disc is the
`RockridgeDisc` subclass (whose `make_record` wraps records as
`RockRidgeDirectoryRecord`). -/
structure Iso9660DiscModel where
  fh : List Nat
  primary_volume : IsoPrimaryVolume
  decodeName : List Nat → List Char
  rockridge : Bool

/-- Embeds `fh.seek(pos); fh.read(len)` over the byte-list image. -/
def discRead (disc : Iso9660DiscModel) (pos len : Nat) : List Nat :=
  (disc.fh.drop pos).take len

/-- Embeds the name computation of `ISO9660DirectoryRecord.__init__`
(`iso/iso9660.py` lines 146-153): decode the raw name, special-case the
`0x00`/`0x01` bytes to `.` and `..`, and truncate non-directories at the
first `;`. -/
def entryName (disc : Iso9660DiscModel) (r : IsoDirectoryRecord) : List Char :=
  let n := disc.decodeName r.name
  let n := if n = ['\x00'] then ['.'] else if n = ['\x01'] then ['.', '.'] else n
  if isoRecordIsDir r then n else n.takeWhile (fun c => c ≠ ';')

/-- Embeds the record parse of the path-table branch of `get` (lines 76-77)
and of `_resolve_relocation`: seek to `extent * logical_block_size` and
parse a directory record from the stream. -/
def parseRecordAt (disc : Iso9660DiscModel) (extent : Nat) : Option IsoDirectoryRecord :=
  parseIsoDirectoryRecord (disc.fh.drop (extent * disc.primary_volume.logical_block_size))

/-- Embeds the record walk of `ISO9660DirectoryRecord.iterdir` (lines
155-176) over the block read for a directory: stop when the byte at the
current offset is zero, otherwise parse a record, advance by its length and
re-align to 2 bytes.  The second component records the exception the
generator raises when parsing fails (including the `EOFError` hit when the
offset runs past the buffer without a terminating zero byte); records
yielded before that point are kept. -/
def listDirectoryBlockFuel (block : List Nat) : Nat → Nat →
    List IsoDirectoryRecord × Option PyError
  | 0, _ => ([], some .eofError)
  | fuel + 1, offset =>
    if (block.drop offset).take 1 = [0] then ([], none)
    else
      match parseIsoDirectoryRecord (block.drop offset) with
      | none => ([], some .eofError)
      | some r =>
        let o := offset + r.length
        let o := if o % 2 ≠ 0 then o + 1 else o
        let rest := listDirectoryBlockFuel block fuel o
        (r :: rest.1, rest.2)

/-- Wrapper passing always-sufficient fuel: a successfully parsed record
has `length ≥ 33` and fits inside the remaining buffer, so the offset
strictly increases and at most `block.length` iterations recurse. -/
def listDirectoryBlock (block : List Nat) (offset : Nat) :
    List IsoDirectoryRecord × Option PyError :=
  listDirectoryBlockFuel block (block.length + 1) offset

/-- Embeds `iterdir` for the record with the given extent and size: read
`size` bytes at `extent * logical_block_size` and walk the records. -/
def listingOf (disc : Iso9660DiscModel) (extent size : Nat) :
    List IsoDirectoryRecord × Option PyError :=
  listDirectoryBlock
    (discRead disc (disc.primary_volume.logical_block_size * extent) size) 0

/-- The six magic bytes `SUSP_MAGIC = b"SP\x07\x01\xbe\xef"` of
`iso/c_rockridge.py` line 131. -/
def SUSP_MAGIC_BYTES : List Nat := [83, 80, 7, 1, 190, 239]

/-- The signature bytes `b"NM"` of `SystemUseSignature.ALTERNATIVE_NAME`. -/
def NM_SIGNATURE : List Nat := [78, 77]

/-- The signature bytes `b"CL"` of `SystemUseSignature.CHILD_LINK`. -/
def CL_SIGNATURE : List Nat := [67, 76]

/-- The signature bytes `b"RE"` of `SystemUseSignature.RELOCATED`. -/
def RE_SIGNATURE : List Nat := [82, 69]

/-- The signature bytes `b"CE"` of `SystemUseSignature.CONTINUATION_AREA`. -/
def CE_SIGNATURE : List Nat := [67, 69]

/-- Cap on the number of System Use Area buffers processed, taken from the
specification's nonfunctional requirements ("refuse SUSP continuation
chains longer than a configured limit, default 16"): the `while` loop of
`_process_system_use_area` itself pops continuation buffers from an
unbounded queue, so a cyclic `CE` chain would make the source loop
forever; the model reports a failure for such chains instead. -/
def SUSP_CONTINUATION_LIMIT : Nat := 16

/-- Embeds the inner loop of `_process_system_use_area`
(`iso/rockridge.py` lines 72-91) over one buffer, like
`scanSystemUseBufferFuel`, but also collecting the continuation buffers
enqueued by `CE` entries: such an entry is re-parsed as `SU_CE_s`
(28 bytes: signature, length, version, then both-endian `extent`, `offset`
and `size`, so an entry shorter than 28 bytes raises), and the enqueued
buffer is the `RangeStream` over `extent * logical_block_size` of `size`
bytes.  The source stops scanning a buffer only when the remainder is
exactly one null byte. -/
def scanBlockEntriesFuel (disc : Iso9660DiscModel) (buf : List Nat) : Nat → Nat →
    Except PyError (List SystemUseEntry × List (List Nat))
  | 0, _ => .error .eofError
  | fuel + 1, offset =>
    if offset < buf.length then
      if buf.drop offset = [0] then .ok ([], [])
      else
        match parseRockRidgeEntry (buf.drop offset) with
        | none => .error .eofError
        | some e =>
          match
            (if e.signature = CE_SIGNATURE then
              if e.data.length < 24 then .error .eofError
              else .ok [discRead disc
                (le32At e.data 0 * disc.primary_volume.logical_block_size)
                (le32At e.data 16)]
            else .ok ([] : List (List Nat)) :
              Except PyError (List (List Nat))) with
          | .error err => .error err
          | .ok nbs =>
            match scanBlockEntriesFuel disc buf fuel (offset + e.len) with
            | .error err => .error err
            | .ok rest => .ok (e :: rest.1, nbs ++ rest.2)
    else .ok ([], [])

/-- Embeds the outer `while len(blocks) > 0` queue loop of
`_process_system_use_area` (lines 70-91): pop the first buffer, scan it,
append the continuation buffers it enqueued to the back of the queue, and
collect all entries in processing order.  The fuel bounds the number of
buffers processed (see `SUSP_CONTINUATION_LIMIT`). -/
def scanSystemUseBlocksFuel (disc : Iso9660DiscModel) : Nat → List (List Nat) →
    Except PyError (List SystemUseEntry)
  | _, [] => .ok []
  | 0, _ :: _ => .error .eofError
  | fuel + 1, block :: rest =>
    match scanBlockEntriesFuel disc block (block.length + 1) 0 with
    | .error err => .error err
    | .ok scanned =>
      match scanSystemUseBlocksFuel disc fuel (rest ++ scanned.2) with
      | .error err => .error err
      | .ok more => .ok (scanned.1 ++ more)

/-- Embeds `_process_system_use_area` (lines 57-91) for a directory
record: the initial offset skips a leading `SUSP_MAGIC` (6 magic bytes
plus one, matching `len(SUSP_MAGIC) + 1`) and one more byte when
`name_len` is even, then the queue of buffers is scanned starting from the
remainder of the record's system-use field. -/
def scanSystemUseArea (disc : Iso9660DiscModel) (r : IsoDirectoryRecord) :
    Except PyError (List SystemUseEntry) :=
  let initialOffset :=
    (if r.system_use.take 6 = SUSP_MAGIC_BYTES then 7 else 0) +
      (if r.name.length % 2 = 0 then 1 else 0)
  scanSystemUseBlocksFuel disc (SUSP_CONTINUATION_LIMIT + 1)
    [r.system_use.drop initialOffset]

/-- Embeds the concatenation loop of `_set_name` (lines 133-142) over the
collected `NM` entries: each is re-parsed as `RR_NM_s` (2-byte signature,
length, version, one flag byte, then `len - 5` name bytes, so an entry
with an empty data field raises), its name bytes decoded with the disc
codec, and the pieces concatenated in collection order. -/
def rrConcatNames (disc : Iso9660DiscModel) : List SystemUseEntry →
    Except PyError (List Char)
  | [] => .ok []
  | e :: rest =>
    if e.data.length < 1 then .error .eofError
    else
      match rrConcatNames disc rest with
      | .error err => .error err
      | .ok more => .ok (disc.decodeName (e.data.drop 1) ++ more)

/-- A materialised directory entry, as produced by `make_record`: the
(possibly re-bound) on-disc record, the display name, and the collected
system-use entries (empty on plain/Joliet discs, where no System Use Area
processing happens). -/
structure DiscEntry where
  record : IsoDirectoryRecord
  name : List Char
  susp : List SystemUseEntry
deriving DecidableEq

/-- Embeds `make_record`.  On a plain or Joliet disc
(`ISO9660Disc.make_record`) the record becomes an
`ISO9660DirectoryRecord`: the name comes from the record's name bytes and
no system-use processing happens.  On a Rock Ridge disc
(`RockridgeDisc.make_record`, wrapping into `RockRidgeDirectoryRecord`):
the System Use Area is scanned (`_process_system_use_area`); when `NM`
entries are present they replace the name entirely (`_set_name`); when a
`CL` entry is present (`_resolve_relocation`), its first occurrence is
re-parsed as `RR_CL_s` (12 bytes: signature, length, version, both-endian
`location`, so an entry with fewer than 8 data bytes raises), the record
at `location` is parsed and re-initialised in place — which re-scans the
new record's System Use Area — while the name determined before the
re-binding is restored. -/
def makeEntry (disc : Iso9660DiscModel) (r : IsoDirectoryRecord) :
    Except PyError DiscEntry :=
  if disc.rockridge = false then
    .ok { record := r, name := entryName disc r, susp := [] }
  else
    match scanSystemUseArea disc r with
    | .error err => .error err
    | .ok susp =>
      match
        (match susp.filter (fun e => e.signature == NM_SIGNATURE) with
         | [] => .ok (entryName disc r)
         | nms => rrConcatNames disc nms :
          Except PyError (List Char)) with
      | .error err => .error err
      | .ok name =>
        match (susp.filter (fun e => e.signature == CL_SIGNATURE)).head? with
        | none => .ok { record := r, name := name, susp := susp }
        | some cl =>
          if cl.data.length < 8 then .error .eofError
          else
            match parseRecordAt disc (le32At cl.data 0) with
            | none => .error .eofError
            | some r2 =>
              match scanSystemUseArea disc r2 with
              | .error err => .error err
              | .ok susp2 => .ok { record := r2, name := name, susp := susp2 }

/-- Parse the record at a path-table extent and wrap it with
`make_record`, as the path-table branch of `get` does (lines 76-80). -/
def wrapAt (disc : Iso9660DiscModel) (extent : Nat) : Except PyError DiscEntry :=
  match parseRecordAt disc extent with
  | none => .error .eofError
  | some r => makeEntry disc r

/-- Wrap the records of a directory walk in order: `iterdir` instantiates
`type(self)(self.fs, record, self)` as it yields, so a constructor failure
truncates the listing at that record and propagates to the consumer. -/
def wrapRecords (disc : Iso9660DiscModel) : List IsoDirectoryRecord →
    List DiscEntry × Option PyError
  | [] => ([], none)
  | r :: rest =>
    match makeEntry disc r with
    | .error err => ([], some err)
    | .ok e =>
      let w := wrapRecords disc rest
      (e :: w.1, w.2)

/-- Whether an entry carries an `RE` (relocated) system-use entry:
`RockRidgeDirectoryRecord.iterdir` (lines 275-280) skips such children. -/
def hasRelocatedEntry (e : DiscEntry) : Bool :=
  e.susp.any (fun s => s.signature == RE_SIGNATURE)

/-- Embeds `iterdir` as the consumer sees it: walk the raw records of the
directory data (`ISO9660DirectoryRecord.iterdir`), wrap each with
`make_record` as it is yielded, and on a Rock Ridge disc drop children
carrying an `RE` entry (`RockRidgeDirectoryRecord.iterdir`).  The error
component is the exception the generator raises: a wrapping failure
happens before the later raw parse failure is reached, and the `RE` filter
never suppresses an exception. -/
def discListing (disc : Iso9660DiscModel) (extent size : Nat) :
    List DiscEntry × Option PyError :=
  let raw := listingOf disc extent size
  let wrapped := wrapRecords disc raw.1
  let err :=
    match wrapped.2 with
    | some werr => some werr
    | none => raw.2
  ((if disc.rockridge then wrapped.1.filter (fun e => !hasRelocatedEntry e)
    else wrapped.1), err)

/-- Embeds the match loop of `DiscBaseEntry.get` (`base.py` lines 50-54):
iterate the children and keep the last one whose name equals the component
(the loop does not break on a match). -/
def findMatch (c : List Char) (l : List DiscEntry) : Option DiscEntry :=
  l.foldl (fun acc ent => if ent.name = c then some ent else acc) none

/-- Embeds the component walk of `DiscBaseEntry.get` (`base.py` lines
43-59): process the queue of components, skipping empty ones; for each
component iterate the current directory and take the matching child,
raising `FileNotFoundError` when there is none.  An exception raised while
iterating propagates even when a match was already found, because the
`for` loop always exhausts the iterator.  A `CL`-re-bound child is walked
at its re-bound extent, since re-initialisation overwrote the record. -/
def walk (disc : Iso9660DiscModel) :
    DiscEntry → List (List Char) → Except PyError DiscEntry
  | e, [] => .ok e
  | e, c :: rest =>
    if c = [] then walk disc e rest
    else
      match discListing disc e.record.extent e.record.size with
      | (_, some err) => .error err
      | (l, none) =>
        match findMatch c l with
        | some nxt => walk disc nxt rest
        | none => .error .fileNotFoundError

/-- Embeds `iso_path_table_entry` of `c_iso_9660.py`. -/
structure IsoPathTableEntry where
  directory_id_len : Nat
  ext_attr_rec_len : Nat
  extent_location : Nat
  parent_dir_no : Nat
  name : List Nat
deriving DecidableEq

/-- Parse an `iso_path_table_entry` from the head of a byte list: one byte
name length, one byte extended-attribute length, `uint32` extent, `uint16`
parent index, then the name bytes. -/
def parsePathTableEntry (buf : List Nat) : Option IsoPathTableEntry :=
  if buf.length < 8 + buf.getD 0 0 then none
  else some
    { directory_id_len := buf.getD 0 0
      ext_attr_rec_len := buf.getD 1 0
      extent_location := le32At buf 2
      parent_dir_no := le16At buf 6
      name := (buf.drop 8).take (buf.getD 0 0) }

/-- Embeds the loop of `ISO9660Disc.path_table` (`iso/iso9660.py` lines
107-130): enumerate entries with a 1-based index while the offset is below
`path_table_size`; entry 1 is the root `/`; later entries join their
parent's path (looked up by `parent_dir_no`, raising `KeyError` when
absent) with the decoded name; advance by the entry size, re-aligned to 2
bytes. -/
def buildPathTableLoopFuel (disc : Iso9660DiscModel) (tableBytes : List Nat) :
    Nat → Nat → Nat → List (Nat × List Char) → List (List Char × Nat) →
    Except PyError (List (List Char × Nat))
  | 0, _, _, _, _ => .error .eofError
  | fuel + 1, offset, index, entries, table =>
    if offset < disc.primary_volume.path_table_size then
      match parsePathTableEntry (tableBytes.drop offset) with
      | none => .error .eofError
      | some e =>
        let entrySize := 8 + e.directory_id_len
        let nextOffset := offset + entrySize + (if entrySize % 2 ≠ 0 then 1 else 0)
        if index = 1 then
          buildPathTableLoopFuel disc tableBytes fuel nextOffset (index + 1)
            (pyDictSet entries 1 ['/']) (pyDictSet table ['/'] e.extent_location)
        else
          match pyDictGet? entries e.parent_dir_no with
          | none => .error .keyError
          | some parentPath =>
            let sep := if parentPath ≠ ['/'] then ['/'] else []
            let entryPath := parentPath ++ sep ++ disc.decodeName e.name
            buildPathTableLoopFuel disc tableBytes fuel nextOffset (index + 1)
              (pyDictSet entries index entryPath)
              (pyDictSet table entryPath e.extent_location)
    else .ok table

/-- Wrapper passing always-sufficient fuel: every entry advances the offset
by at least 8, so at most `path_table_size` iterations recurse. -/
def buildPathTableLoop (disc : Iso9660DiscModel) (tableBytes : List Nat)
    (offset index : Nat) (entries : List (Nat × List Char))
    (table : List (List Char × Nat)) : Except PyError (List (List Char × Nat)) :=
  buildPathTableLoopFuel disc tableBytes
    (disc.primary_volume.path_table_size + 1) offset index entries table

/-- Embeds `ISO9660Disc.path_table`: read `path_table_size` bytes at
`type_l_path_table * logical_block_size` and build the path-to-extent
dict. -/
def buildPathTable (disc : Iso9660DiscModel) : Except PyError (List (List Char × Nat)) :=
  buildPathTableLoop disc
    (discRead disc
      (disc.primary_volume.type_l_path_table * disc.primary_volume.logical_block_size)
      disc.primary_volume.path_table_size)
    0 1 [] []

/-- Python `path.split("/")` on a character list: split at every slash,
keeping empty components. -/
def splitSlash : List Char → List (List Char)
  | [] => [[]]
  | c :: rest =>
    if c = '/' then [] :: splitSlash rest
    else
      match splitSlash rest with
      | [] => [[c]]
      | h :: t => (c :: h) :: t

/-- Python `path.rpartition("/")` restricted to the pieces the source uses:
`some (before, after)` splits at the last slash; `none` when the path has
no slash (Python then returns the whole string as the third component). -/
def rpartSlash : List Char → Option (List Char × List Char)
  | [] => none
  | c :: rest =>
    match rpartSlash rest with
    | some ab => some (c :: ab.1, ab.2)
    | none => if c = '/' then some ([], rest) else none

/-- Embeds the normalization of `ISO9660Disc.get` (lines 55-59): left-pad
with a leading slash, then drop one trailing slash. -/
def normalizePath (p : List Char) : List Char :=
  let p := if p.head? = some '/' then p else '/' :: p
  if p.getLast? = some '/' then p.dropLast else p

/-- Embeds the traversal branch of `ISO9660Disc.get` (line 62,
`self.root_record.get(path)`): the root record is parsed from the 34-byte
field of the primary volume descriptor and wrapped with `make_record`
(`__init__` line 45), `DiscBaseEntry.get` rejects a non-directory starting
point (the directory flag of the record the entry ended up bound to), then
the split components are walked. -/
def traverseFromRoot (disc : Iso9660DiscModel) (path : List Char) :
    Except PyError DiscEntry :=
  match parseIsoDirectoryRecord disc.primary_volume.root_directory_record with
  | none => .error .eofError
  | some rootRec =>
    match makeEntry disc rootRec with
    | .error err => .error err
    | .ok root =>
      if isoRecordIsDir root.record = false then .error .notADirectoryError
      else walk disc root (splitSlash path)

/-- Embeds the file scan of the path-table branch (lines 82-86): iterate
the children of the looked-up directory and return the first one matching
the filename; an exception positioned after the match is never reached
because the loop returns early. -/
def scanFirst (entries : List DiscEntry) (err : Option PyError)
    (filename : List Char) : Except PyError DiscEntry :=
  match entries with
  | [] =>
    match err with
    | some e => .error e
    | none => .error .fileNotFoundError
  | ent :: rest =>
    if ent.name = filename then .ok ent
    else scanFirst rest err filename

/-- Embeds the path-table branch of `ISO9660Disc.get` (lines 63-86) on an
already-normalized path: when the path is not a key of the table, split it
into `(parent, filename)` at the last slash (an empty parent becomes `/`);
look the directory path up, parse and wrap the record at its extent, and
either return it or scan its children for the filename. -/
def pathTableGet (disc : Iso9660DiscModel) (path : List Char) :
    Except PyError DiscEntry :=
  match buildPathTable disc with
  | .error e => .error e
  | .ok table =>
    match pyDictGet? table path with
    | some extent => wrapAt disc extent
    | none =>
      let ab :=
        match rpartSlash path with
        | some x => x
        | none => ([], path)
      let parent := if ab.1 = [] then ['/'] else ab.1
      match pyDictGet? table parent with
      | none => .error .fileNotFoundError
      | some extent =>
        match wrapAt disc extent with
        | .error err => .error err
        | .ok w =>
          let lst := discListing disc w.record.extent w.record.size
          scanFirst lst.1 lst.2 ab.2

/-- Embeds `ISO9660Disc.get` (lines 50-86): normalize the requested path,
then look it up either by traversal from the root record or through the
path table. -/
def discGet (disc : Iso9660DiscModel) (rawPath : List Char)
    (usePathTable : Bool) : Except PyError DiscEntry :=
  let path := normalizePath rawPath
  if usePathTable then pathTableGet disc path else traverseFromRoot disc path

/-- Embeds `ISO9660DirectoryRecord.open` (lines 201-214) restricted to the
byte range it exposes: the `RangeStream` over
`[extent * logical_block_size, extent * logical_block_size + size)` of the
record the entry is bound to (after any `CL` re-binding). -/
def entryOpenBytes (disc : Iso9660DiscModel) (e : DiscEntry) : List Nat :=
  discRead disc (e.record.extent * disc.primary_volume.logical_block_size)
    e.record.size

/-- Consistency of one path-table binding `(q, ext)` with the directory
hierarchy, constraining only keys the traversal can resolve: when
traversal of `q` succeeds, wrapping the record parsed at `ext` must
succeed and yield an entry bound to the same extent and size as the
traversal result, and the children listing of the traversal result must
parse and wrap cleanly with pairwise-distinct nonempty names.  A key the
traversal cannot resolve imposes no constraint — on a real Rock Ridge disc
the table stores ISO 9660 names while the traversal compares `NM` names,
so most table keys are not traversable — because the equivalence theorem
only speaks of paths on which both modes succeed. -/
def wfTableBinding (disc : Iso9660DiscModel) (q : List Char) (ext : Nat) : Bool :=
  match discGet disc q false with
  | .error _ => true
  | .ok e =>
    match wrapAt disc ext with
    | .error _ => false
    | .ok w =>
      w.record.extent == e.record.extent && w.record.size == e.record.size &&
        (match discListing disc e.record.extent e.record.size with
         | (l, none) =>
           let names := l.map (fun ent => ent.name)
           decide names.Nodup && names.all (fun n => !n.isEmpty)
         | (_, some _) => false)

/-- A disc image is well-formed (in the sense required of a valid ISO 9660
volume) when every binding of its path table is consistent with the
directory hierarchy. -/
def wfDisc (disc : Iso9660DiscModel) : Bool :=
  match buildPathTable disc with
  | .error _ => true
  | .ok table => table.all (fun kv => wfTableBinding disc kv.1 kv.2)

/-! ### Concrete disc image used to witness the C4 theorem -/

/-- Little-endian encoding of a `uint32`. -/
def le32bytes (n : Nat) : List Nat :=
  [n % 256, n / 256 % 256, n / 65536 % 256, n / 16777216 % 256]

/-- Little-endian encoding of a `uint16`. -/
def le16bytes (n : Nat) : List Nat :=
  [n % 256, n / 256 % 256]

/-- Byte image of an `iso_directory_record` with no extended attributes, a
fixed timestamp, and the given system-use area. -/
def mkDirRecordBytes (extent size flags : Nat) (name susp : List Nat) : List Nat :=
  [33 + name.length + susp.length, 0] ++ le32bytes extent ++ [0, 0, 0, 0] ++
    le32bytes size ++ [0, 0, 0, 0] ++
    [124, 3, 8, 17, 44, 8, 4] ++ [flags, 0, 0] ++ le16bytes 1 ++ [0, 0] ++
    [name.length] ++ name ++ susp

/-- System-use area of the witness subdirectory: one `NM` entry of length
6 (signature `NM`, length, version, flag byte 0, one name byte `D`). -/
def c4NmEntryBytes : List Nat := [78, 77, 6, 1, 0, 68]

/-- Root directory data of the witness image: the `.` self record, one
subdirectory with ISO 9660 name `X` renamed `D` by its `NM` entry, and a
terminating zero byte (75 bytes at byte offset 100). -/
def c4RootListing : List Nat :=
  mkDirRecordBytes 100 75 2 [0] [] ++
    mkDirRecordBytes 200 35 2 [88] c4NmEntryBytes ++ [0]

/-- Directory data of `/D` in the witness image: its `.` self record and a
terminating zero byte (35 bytes at byte offset 200). -/
def c4SubdirBytes : List Nat :=
  mkDirRecordBytes 200 35 2 [0] [] ++ [0]

/-- Path table of the witness image: the root entry and the entry for the
subdirectory under its ISO 9660 name `X`, each padded to 2-byte alignment
(20 bytes at byte offset 300).  The key `/X` is not traversable — the walk
only sees the `NM` name `D` — exercising the unconstrained branch of
`wfTableBinding`, exactly as on a real Rock Ridge disc. -/
def c4PathTableBytes : List Nat :=
  ([1, 0] ++ le32bytes 100 ++ le16bytes 1 ++ [0] ++ [0]) ++
    ([1, 0] ++ le32bytes 200 ++ le16bytes 1 ++ [88] ++ [0])

/-- The witness disc image: a Rock Ridge disc with a one-byte logical
block size so extents are byte offsets, with the layout described above
and an ASCII name codec. -/
def c4Disc : Iso9660DiscModel where
  fh :=
    List.replicate 100 0 ++ c4RootListing ++ List.replicate 25 0 ++
      c4SubdirBytes ++ List.replicate 65 0 ++ c4PathTableBytes
  primary_volume :=
    { logical_block_size := 1
      path_table_size := 20
      type_l_path_table := 300
      root_directory_record := mkDirRecordBytes 100 75 2 [0] [] }
  decodeName := fun bs => bs.map Char.ofNat
  rockridge := true

/-- The path looked up in the witness. -/
def c4Path : List Char := ['/', 'D']

/-- Entry returned by both lookup modes for `/D` on the witness image: the
subdirectory's on-disc record (ISO 9660 name `X`), the Rock Ridge name `D`
taken from the `NM` entry, and the collected system-use entries. -/
def c4LookupEntry : DiscEntry where
  record :=
    { length := 40
      ext_attr_length := 0
      extent := 200
      size := 35
      date_time := { year := 124, month := 3, day := 8, hour := 17,
                     minute := 44, second := 8, offset := 4 }
      flags := 2
      file_unit_size := 0
      interleave := 0
      volume_sequence_number := 1
      name := [88]
      system_use := [78, 77, 6, 1, 0, 68] }
  name := ['D']
  susp := [{ signature := [78, 77], len := 6, version := 1, data := [0, 68] }]

/-! ## Theorems -/

/-- C1: the claim states that with no caller preference the first available
format in the order UDF, ROCKRIDGE, JOLIET, ISO9660 is selected, so a disc
with all formats available selects UDF.  In the source,
`DEFAULT_FORMAT_PREFERENCE_ORDER` is `[ROCKRIDGE, JOLIET, PLAIN]`, the
`ISOFormat` enum has no UDF member at all, and selection with every format
available yields ROCKRIDGE. -/
theorem c1_select_format_never_udf :
    DEFAULT_FORMAT_PREFERENCE_ORDER =
      [ISOFormat.ROCKRIDGE, ISOFormat.JOLIET, ISOFormat.PLAIN]
    ∧ selectFormat none (fun _ => true) = some ISOFormat.ROCKRIDGE
    ∧ selectFormat (some ISOFormat.JOLIET) (fun _ => true) = some ISOFormat.JOLIET
    ∧ (∀ preference available,
        selectFormat preference available = none ∨
          selectFormat preference available = some ISOFormat.ROCKRIDGE ∨
          selectFormat preference available = some ISOFormat.JOLIET ∨
          selectFormat preference available = some ISOFormat.PLAIN) := by
  refine ⟨rfl, rfl, rfl, ?_⟩
  intro preference available
  cases h : selectFormat preference available with
  | none => exact Or.inl rfl
  | some fmt => cases fmt
                · exact Or.inr (Or.inr (Or.inr rfl))
                · exact Or.inr (Or.inl rfl)
                · exact Or.inr (Or.inr (Or.inl rfl))

/-- C2: the claim states that the `uid` property returns the PX entry's
`uid` field and `gid` returns its `gid` field.  In the source the two
access sites are swapped: `uid` reads `self._posix_entry.gid` and `gid`
reads `self._posix_entry.uid`, as the evaluation at a PX entry with
`uid = 1000`, `gid = 2000` shows.  Records without a PX entry do return 0
for both. -/
theorem c2_rockridge_uid_gid_swapped :
    (∀ px : RR_PX, rockridgeUid (some px) 0 = .ok px.gid ∧
        rockridgeGid (some px) 0 = .ok px.uid)
    ∧ rockridgeUid (some ⟨0o644, 1, 1000, 2000⟩) 0 = .ok 2000
    ∧ rockridgeGid (some ⟨0o644, 1, 1000, 2000⟩) 0 = .ok 1000
    ∧ rockridgeUid none 0 = .ok 0
    ∧ rockridgeGid none 0 = .ok 0 :=
  ⟨fun _ => ⟨rfl, rfl⟩, rfl, rfl, rfl, rfl⟩

/-- C3: the claim states that the k-th timestamp value is assigned to the
k-th enabled flag, and that `mtime` falls back to the single ISO 9660
timestamp when MODIFY is disabled.  With CREATION and ACCESS enabled (and
MODIFY disabled), the gap-counting code assigns the first value to MODIFY
instead of CREATION, and `mtime` then returns the CREATION value rather
than the fallback: `timestamp_index` is only incremented for enabled flags
that closed a pending gap, so gaps recorded after an initial enabled flag
are keyed one position too low. -/
theorem c3_tf_mapping_shifted :
    resolveTimestamps ⟨true, false, true, false, false, false, false, false⟩
        [100, 1, 2, 3, 4, 5, 0, 110, 6, 7, 8, 9, 10, 0] =
      .ok [(1, ⟨2000, 1, 2, 3, 4, 5, 0⟩), (2, ⟨2010, 6, 7, 8, 9, 10, 0⟩)]
    ∧ specTimestampAssignment ⟨true, false, true, false, false, false, false, false⟩
        [100, 1, 2, 3, 4, 5, 0, 110, 6, 7, 8, 9, 10, 0] =
      [(0, ⟨2000, 1, 2, 3, 4, 5, 0⟩), (2, ⟨2010, 6, 7, 8, 9, 10, 0⟩)]
    ∧ RRTFFlags.MODIFY ⟨true, false, true, false, false, false, false, false⟩ = false
    ∧ rockridgeMtime
        (some (⟨true, false, true, false, false, false, false, false⟩,
          [100, 1, 2, 3, 4, 5, 0, 110, 6, 7, 8, 9, 10, 0]))
        ⟨90, 1, 1, 0, 0, 0, 0⟩ = .ok ⟨2000, 1, 2, 3, 4, 5, 0⟩
    ∧ (⟨2000, 1, 2, 3, 4, 5, 0⟩ : PyDatetime) ≠
        parseIso9660Timestamp ⟨90, 1, 1, 0, 0, 0, 0⟩ := by
  refine ⟨by decide, by decide, rfl, by decide, by decide⟩

/-- C5: the claim states that `open_extent` fails with the
sparable-remap-unsupported error for blocks occurring in the sparing table
either as an original or as a mapped location.  For an original location
the source does raise `NotImplementedError`, and for a block in neither
role it returns the range at
`(partition_starting_location + block) * sector_size`; but for a block
occurring only as a mapped location the lookup
`self.remappings[logical_block_num]` raises `KeyError` before the intended
`NotImplementedError` is reached, as the evaluation with the single mapping
`10 -> 20` shows. -/
theorem c5_sparable_mapped_location_keyerror :
    sparableOpenExtent ⟨100, 2048⟩ [(10, 20)] 10 512 = .error .notImplementedError
    ∧ sparableOpenExtent ⟨100, 2048⟩ [(10, 20)] 20 512 = .error .keyError
    ∧ sparableOpenExtent ⟨100, 2048⟩ [(10, 20)] 7 512 = .ok ((100 + 7) * 2048, 512)
    ∧ udfOpenExtent ⟨100, 2048⟩ 7 512 = .ok ((100 + 7) * 2048, 512) := by
  refine ⟨by decide, by decide, by decide, by decide⟩

/-- C6: the claim states that loading fails with the
multiple-partitions-unsupported error whenever the sequence contains two or
more Partition Descriptors.  The source checks `len(map) > 1` before
inserting the descriptor it is processing, so a sequence with exactly two
Partition Descriptors (of distinct partition numbers) loads successfully
with both registered; the error is only raised from the third descriptor
on.  The no-PD and no-LVD failures do hold. -/
theorem c6_two_partition_descriptors_accepted :
    loadVolumeDescriptors [.lvd, .pd 0, .pd 1, .td] = .ok [0, 1]
    ∧ loadVolumeDescriptors [.lvd, .pd 0, .pd 1, .pd 2, .td] =
        .error .notImplementedError
    ∧ loadVolumeDescriptors [.pd 0, .td] = .error .valueError
    ∧ loadVolumeDescriptors [.lvd, .td] = .error .valueError := by
  refine ⟨by decide, by decide, by decide, by decide⟩

/-- C7: the claim states that scanning a system-use buffer stops at the
first offset holding a zero byte, regardless of how many trailing null
padding bytes the buffer contains.  The source compares the whole remaining
slice against `b"\\x00"`, which only matches when exactly one null byte
remains: with one trailing null the scan stops cleanly, but with two it
attempts to parse a system-use entry starting at the zero byte and fails,
where the specified behaviour returns the same single entry. -/
theorem c7_zero_byte_scan_single_null_only :
    scanSystemUseBuffer ([80, 88, 4, 1] ++ [0]) 0 =
      .ok [{ signature := [80, 88], len := 4, version := 1, data := [] }]
    ∧ scanSystemUseBuffer ([80, 88, 4, 1] ++ [0, 0]) 0 = .error .eofError
    ∧ specScanSystemUseBuffer ([80, 88, 4, 1] ++ [0, 0]) 0 =
        .ok [{ signature := [80, 88], len := 4, version := 1, data := [] }]
    ∧ specScanSystemUseBuffer ([80, 88, 4, 1] ++ [0]) 0 =
        .ok [{ signature := [80, 88], len := 4, version := 1, data := [] }] := by
  refine ⟨by decide, by decide, by decide, by decide⟩

/-- C8: for every stored permissions value and every raw ICB tag flags
word, the `mode` property equals the rearrangement formula of the claim,
with `S_ISUID`/`S_ISGID`/`S_ISVTX` OR-ed in exactly when bits 6, 7 and 8 of
the flags word (the setuid, setgid and sticky flags of `udf_icb_tag_flags`)
are set. -/
theorem c8_udf_mode_rearrangement (w permissions : Nat) :
    udfMode (parseUdfIcbTagFlags w) permissions =
      specUdfMode permissions (w.testBit 6) (w.testBit 7) (w.testBit 8) := rfl

/-- C9: on a plain ISO 9660 (or Joliet) directory record, `atime`, `mtime`
and `ctime` all return the decoded 7-byte timestamp (year + 1900, timezone
of `offset * 15` minutes); `mode`, `uid` and `gid` return 0o644, 0 and 0
when `ext_attr_length` is zero and raise the unsupported-extended-attributes
error otherwise; `nlinks` is 1 and `inode` is 0. -/
theorem c9_plain_iso9660_metadata (r : IsoDirectoryRecord) :
    iso9660Atime r = parseIso9660Timestamp r.date_time
    ∧ iso9660Mtime r = parseIso9660Timestamp r.date_time
    ∧ iso9660Ctime r = parseIso9660Timestamp r.date_time
    ∧ (parseIso9660Timestamp r.date_time).year = r.date_time.year + 1900
    ∧ (parseIso9660Timestamp r.date_time).tzOffsetMinutes = r.date_time.offset * 15
    ∧ iso9660Mode r =
        (if r.ext_attr_length = 0 then .ok 0o644 else .error .notImplementedError)
    ∧ iso9660RecordUid r =
        (if r.ext_attr_length = 0 then .ok 0 else .error .notImplementedError)
    ∧ iso9660RecordGid r =
        (if r.ext_attr_length = 0 then .ok 0 else .error .notImplementedError)
    ∧ discBaseNlinks r = 1
    ∧ discBaseInode r = 0 :=
  ⟨rfl, rfl, rfl, rfl, rfl, rfl, rfl, rfl, rfl, rfl⟩

/-- C10: for every UDF entry whose ICB tag file type is not DIRECTORY,
`iterdir` raises `NotADirectoryError` no matter what the directory data
would hold, i.e. before any of it is read. -/
theorem c10_udf_iterdir_guard (e : UDFEntryInfo)
    (readDirectoryData : Unit → Except PyError (List UDFEntryInfo))
    (h : e.file_type ≠ UdfIcbFileType.DIRECTORY) :
    udfIterdir e readDirectoryData = .error .notADirectoryError := by
  simp [udfIterdir, udfEntryIsDir, beq_iff_eq, h]

/-- C10 witness: a REGULAR entry is rejected by `iterdir`. -/
theorem c10_udf_iterdir_guard_witness :
    (⟨UdfIcbFileType.REGULAR⟩ : UDFEntryInfo).file_type ≠ UdfIcbFileType.DIRECTORY
    ∧ udfIterdir ⟨UdfIcbFileType.REGULAR⟩ (fun _ => .ok []) =
        .error .notADirectoryError :=
  ⟨by decide, c10_udf_iterdir_guard ⟨UdfIcbFileType.REGULAR⟩ (fun _ => .ok []) (by decide)⟩

/-! ### Helper lemmas for the C4 equivalence proof -/

theorem pyDictGet?_mem {κ α : Type} [DecidableEq κ] {d : List (κ × α)} {k : κ} {v : α}
    (h : pyDictGet? d k = some v) : (k, v) ∈ d := by
  unfold pyDictGet? at h
  cases hfind : d.find? (fun kv => decide (kv.1 = k)) with
  | none => rw [hfind] at h; cases h
  | some kv =>
    rw [hfind] at h
    simp only [Option.map_some', Option.some.injEq] at h
    have hmem := List.mem_of_find?_eq_some hfind
    have hkey := List.find?_some hfind
    simp only [decide_eq_true_eq] at hkey
    have hkv : (k, v) = kv := by
      cases kv
      simp only [Prod.mk.injEq]
      exact ⟨hkey.symm, h.symm⟩
    rw [hkv]
    exact hmem

theorem splitSlash_ne_nil (s : List Char) : splitSlash s ≠ [] := by
  cases s with
  | nil => decide
  | cons c rest =>
    simp only [splitSlash]
    split
    · simp
    · split <;> simp

theorem splitSlash_no_slash (s : List Char) (h : '/' ∉ s) : splitSlash s = [s] := by
  induction s with
  | nil => rfl
  | cons c rest ih =>
    have hc : ¬ c = '/' := by
      intro hc
      exact h (by rw [hc]; exact List.mem_cons_self _ _)
    have hrest : '/' ∉ rest := fun hm => h (List.mem_cons_of_mem _ hm)
    simp only [splitSlash, if_neg hc, ih hrest]

theorem splitSlash_append (a b : List Char) (h : '/' ∉ b) :
    splitSlash (a ++ '/' :: b) = splitSlash a ++ [b] := by
  induction a with
  | nil =>
    show splitSlash ('/' :: b) = [[]] ++ [b]
    simp only [splitSlash, if_pos rfl, splitSlash_no_slash b h]
    rfl
  | cons c rest ih =>
    show splitSlash (c :: (rest ++ '/' :: b)) = splitSlash (c :: rest) ++ [b]
    by_cases hc : c = '/'
    · simp only [splitSlash, if_pos hc, ih]
      rfl
    · obtain ⟨hd, tl, hs⟩ : ∃ hd tl, splitSlash rest = hd :: tl := by
        cases hsp : splitSlash rest with
        | nil => exact absurd hsp (splitSlash_ne_nil rest)
        | cons x y => exact ⟨x, y, rfl⟩
      simp only [splitSlash, if_neg hc, ih, hs, List.cons_append]

theorem rpartSlash_none_no_slash : ∀ s : List Char, rpartSlash s = none → '/' ∉ s := by
  intro s
  induction s with
  | nil =>
    intro _ hmem
    cases hmem
  | cons c rest ih =>
    intro h hmem
    simp only [rpartSlash] at h
    cases hr : rpartSlash rest with
    | some ab => rw [hr] at h; cases h
    | none =>
      rw [hr] at h
      have hc : ¬ c = '/' := by
        intro hc
        rw [if_pos hc] at h
        cases h
      rcases List.mem_cons.mp hmem with hh | hh
      · exact hc hh.symm
      · exact ih hr hh

theorem rpartSlash_some_spec : ∀ p a b : List Char, rpartSlash p = some (a, b) →
    p = a ++ '/' :: b ∧ '/' ∉ b := by
  intro p
  induction p with
  | nil =>
    intro a b h
    cases h
  | cons c rest ih =>
    intro a b h
    simp only [rpartSlash] at h
    cases hr : rpartSlash rest with
    | some ab =>
      rw [hr] at h
      simp only [Option.some.injEq] at h
      obtain ⟨hia, hib⟩ := ih ab.1 ab.2 (by rw [hr])
      have ha : a = c :: ab.1 := by
        have := congrArg Prod.fst h
        exact this.symm
      have hb : b = ab.2 := by
        have := congrArg Prod.snd h
        exact this.symm
      subst ha
      subst hb
      constructor
      · rw [List.cons_append, ← hia]
      · exact hib
    | none =>
      rw [hr] at h
      by_cases hc : c = '/'
      · rw [if_pos hc] at h
        simp only [Option.some.injEq, Prod.mk.injEq] at h
        obtain ⟨ha, hb⟩ := h
        subst hc
        rw [← ha, ← hb]
        exact ⟨rfl, rpartSlash_none_no_slash rest hr⟩
      · rw [if_neg hc] at h
        cases h

theorem splitSlash_cons_slash (s : List Char) :
    splitSlash ('/' :: s) = [] :: splitSlash s := rfl

theorem walk_cons_nil (disc : Iso9660DiscModel) (e : DiscEntry)
    (xs : List (List Char)) : walk disc e ([] :: xs) = walk disc e xs := rfl

theorem walk_append (disc : Iso9660DiscModel) (e : DiscEntry)
    (xs ys : List (List Char)) :
    walk disc e (xs ++ ys) =
      (walk disc e xs).bind (fun e2 => walk disc e2 ys) := by
  induction xs generalizing e with
  | nil => simp [walk, Except.bind]
  | cons c rest ih =>
    by_cases hc : c = []
    · simp only [List.cons_append, walk, if_pos hc]
      exact ih e
    · simp only [List.cons_append, walk, if_neg hc]
      cases hl : discListing disc e.record.extent e.record.size with
      | mk l err =>
        cases err with
        | some er => simp [Except.bind]
        | none =>
          dsimp only
          cases hm : findMatch c l with
          | some nxt =>
            dsimp only
            exact ih nxt
          | none => simp [Except.bind]

theorem walk_split_append_slash_nil (disc : Iso9660DiscModel)
    (e : DiscEntry) (a : List Char) :
    walk disc e (splitSlash (a ++ ['/'])) = walk disc e (splitSlash a) := by
  have h : splitSlash (a ++ ['/']) = splitSlash a ++ [[]] := by
    have hsp := splitSlash_append a [] (by simp)
    simpa using hsp
  rw [h, walk_append]
  cases hw : walk disc e (splitSlash a) with
  | error er => rfl
  | ok e2 => simp [Except.bind, walk]

theorem walk_split_normalize (disc : Iso9660DiscModel) (e : DiscEntry)
    (s : List Char) :
    walk disc e (splitSlash (normalizePath s)) = walk disc e (splitSlash s) := by
  have hstep : ∀ t : List Char,
      walk disc e (splitSlash (if t.getLast? = some '/' then t.dropLast else t)) =
        walk disc e (splitSlash t) := by
    intro t
    split
    · rename_i hlast
      have ht : t.dropLast ++ ['/'] = t :=
        List.dropLast_append_getLast? '/' (Option.mem_def.mpr hlast)
      conv_rhs => rw [← ht]
      rw [walk_split_append_slash_nil]
    · rfl
  have hpre : ∀ t : List Char,
      walk disc e (splitSlash (if t.head? = some '/' then t else '/' :: t)) =
        walk disc e (splitSlash t) := by
    intro t
    split
    · rfl
    · rw [splitSlash_cons_slash, walk_cons_nil]
  rw [show normalizePath s =
      (if (if s.head? = some '/' then s else '/' :: s).getLast? = some '/'
        then (if s.head? = some '/' then s else '/' :: s).dropLast
        else (if s.head? = some '/' then s else '/' :: s)) from rfl]
  rw [hstep, hpre]

theorem foldl_findMatch_keep (c : List Char)
    (l : List DiscEntry) (acc : Option DiscEntry)
    (h : ∀ ent ∈ l, ent.name ≠ c) :
    l.foldl (fun acc ent => if ent.name = c then some ent else acc) acc = acc := by
  induction l generalizing acc with
  | nil => rfl
  | cons x xs ih =>
    simp only [List.foldl_cons]
    rw [if_neg (h x (List.mem_cons_self x xs))]
    exact ih acc (fun ent hr => h ent (List.mem_cons_of_mem x hr))

theorem findMatch_eq_find? (c : List Char)
    (l : List DiscEntry) (h : (l.map (fun ent => ent.name)).Nodup) :
    findMatch c l = l.find? (fun ent => decide (ent.name = c)) := by
  induction l with
  | nil => rfl
  | cons x xs ih =>
    simp only [List.map_cons, List.nodup_cons] at h
    obtain ⟨hx, hxs⟩ := h
    by_cases hmatch : x.name = c
    · have hno : ∀ ent ∈ xs, ent.name ≠ c := by
        intro ent hr hrc
        apply hx
        have hxr : x.name = ent.name := by rw [hmatch, hrc]
        rw [hxr]
        exact List.mem_map_of_mem _ hr
      simp only [findMatch, List.foldl_cons, if_pos hmatch]
      rw [foldl_findMatch_keep c xs (some x) hno]
      simp [List.find?, hmatch]
    · simp only [findMatch, List.foldl_cons, if_neg hmatch]
      rw [show List.foldl (fun acc ent => if ent.name = c then some ent else acc)
          none xs = findMatch c xs from rfl, ih hxs]
      simp [List.find?, hmatch]

theorem scanFirst_ok_find? (l : List DiscEntry) (err : Option PyError)
    (fn : List Char) (r : DiscEntry) (h : scanFirst l err fn = .ok r) :
    l.find? (fun x => decide (x.name = fn)) = some r := by
  induction l with
  | nil =>
    simp only [scanFirst] at h
    cases err <;> cases h
  | cons x xs ih =>
    simp only [scanFirst] at h
    by_cases hmatch : x.name = fn
    · rw [if_pos hmatch] at h
      cases h
      simp [List.find?, hmatch]
    · rw [if_neg hmatch] at h
      simp [List.find?, hmatch, ih h]

theorem traverseFromRoot_normalize (disc : Iso9660DiscModel) (s : List Char) :
    traverseFromRoot disc (normalizePath s) = traverseFromRoot disc s := by
  unfold traverseFromRoot
  cases hr : parseIsoDirectoryRecord disc.primary_volume.root_directory_record with
  | none => rfl
  | some rootRec =>
    dsimp only
    cases hmk : makeEntry disc rootRec with
    | error err => rfl
    | ok root =>
      dsimp only
      by_cases hdir : isoRecordIsDir root.record = false
      · simp only [if_pos hdir]
      · simp only [if_neg hdir]
        exact walk_split_normalize disc root s

theorem normalizePath_nil_or_head_slash (s : List Char) :
    normalizePath s = [] ∨ (normalizePath s).head? = some '/' := by
  have h1 : (if s.head? = some '/' then s else '/' :: s).head? = some '/' := by
    split
    · assumption
    · rfl
  rw [show normalizePath s =
      (if (if s.head? = some '/' then s else '/' :: s).getLast? = some '/'
        then (if s.head? = some '/' then s else '/' :: s).dropLast
        else (if s.head? = some '/' then s else '/' :: s)) from rfl]
  generalize hq : (if s.head? = some '/' then s else '/' :: s) = q at h1 ⊢
  split
  · cases q with
    | nil => exact Or.inl rfl
    | cons c rest =>
      cases rest with
      | nil => exact Or.inl rfl
      | cons d tl =>
        right
        simp only [List.head?_cons, Option.some.injEq] at h1
        simp [List.dropLast, h1]
  · exact Or.inr h1

theorem walk_single (disc : Iso9660DiscModel) (e : DiscEntry)
    (b : List Char) (hb : b ≠ []) :
    walk disc e [b] =
      match discListing disc e.record.extent e.record.size with
      | (_, some err) => .error err
      | (l, none) =>
        match findMatch b l with
        | some nxt => .ok nxt
        | none => .error .fileNotFoundError := by
  simp only [walk, if_neg hb]

theorem wfTableBinding_spec (disc : Iso9660DiscModel) (q : List Char) (ext : Nat)
    (ta : DiscEntry) (hdg : discGet disc q false = .ok ta)
    (hwfb : wfTableBinding disc q ext = true) :
    ∃ w l, wrapAt disc ext = .ok w ∧ w.record.extent = ta.record.extent ∧
      w.record.size = ta.record.size ∧
      discListing disc ta.record.extent ta.record.size = (l, none) ∧
      (l.map (fun ent => ent.name)).Nodup ∧
      ∀ n ∈ l.map (fun ent => ent.name), n ≠ [] := by
  unfold wfTableBinding at hwfb
  rw [hdg] at hwfb
  dsimp only at hwfb
  cases hw : wrapAt disc ext with
  | error err =>
    rw [hw] at hwfb
    cases hwfb
  | ok w =>
    rw [hw] at hwfb
    dsimp only at hwfb
    cases hlst : discListing disc ta.record.extent ta.record.size with
    | mk l lerr =>
      rw [hlst] at hwfb
      cases lerr with
      | some er =>
        simp only [Bool.and_eq_true] at hwfb
        exact absurd hwfb.2 (by simp)
      | none =>
        dsimp only at hwfb
        simp only [Bool.and_eq_true, beq_iff_eq, decide_eq_true_eq,
          List.all_eq_true, Bool.not_eq_true'] at hwfb
        obtain ⟨⟨hext, hsize⟩, hnodup, hne⟩ := hwfb
        refine ⟨w, l, rfl, hext, hsize, rfl, hnodup, ?_⟩
        intro n hn hnil
        have := hne n hn
        rw [hnil] at this
        cases this

/-- C4: on a well-formed disc (path table consistent with the directory
hierarchy on its traversable keys, children names distinct and nonempty),
whenever both lookup modes of `get` succeed on the same path — plain
ISO 9660, Joliet, or Rock Ridge — they return entries bound to the same
on-disc directory record: equal extent and equal size, so opening either
yields the same byte range. -/
theorem c4_path_table_equivalence (disc : Iso9660DiscModel) (rawPath : List Char)
    (e1 e2 : DiscEntry)
    (hwf : wfDisc disc = true)
    (h1 : discGet disc rawPath true = .ok e1)
    (h2 : discGet disc rawPath false = .ok e2) :
    e1.record.extent = e2.record.extent ∧ e1.record.size = e2.record.size ∧
      entryOpenBytes disc e1 = entryOpenBytes disc e2 := by
  have h1a : pathTableGet disc (normalizePath rawPath) = .ok e1 := h1
  have h2a : traverseFromRoot disc (normalizePath rawPath) = .ok e2 := h2
  set p := normalizePath rawPath with hpdef
  unfold pathTableGet at h1a
  unfold wfDisc at hwf
  cases hbt : buildPathTable disc with
  | error er =>
    rw [hbt] at h1a
    cases h1a
  | ok table =>
    rw [hbt] at h1a hwf
    dsimp only at h1a hwf
    have hall := List.all_eq_true.mp hwf
    cases hlook : pyDictGet? table p with
    | some ext =>
      -- The path itself is a key of the table.
      rw [hlook] at h1a
      dsimp only at h1a
      have hdg : discGet disc p false = .ok e2 := by
        show traverseFromRoot disc (normalizePath p) = .ok e2
        rw [traverseFromRoot_normalize]
        exact h2a
      have hwfb := hall (p, ext) (pyDictGet?_mem hlook)
      obtain ⟨w, l, hw, hext, hsize, hlst, hnodup, hne⟩ :=
        wfTableBinding_spec disc p ext e2 hdg hwfb
      rw [hw] at h1a
      injection h1a with he
      subst he
      refine ⟨hext, hsize, ?_⟩
      unfold entryOpenBytes discRead
      rw [hext, hsize]
    | none =>
      -- The path is not a key: split off the filename at the last slash.
      rw [hlook] at h1a
      dsimp only at h1a
      cases hrp : rpartSlash p with
      | some ab =>
        obtain ⟨a, b⟩ := ab
        obtain ⟨hpab, hnb⟩ := rpartSlash_some_spec p a b hrp
        rw [hrp] at h1a
        dsimp only at h1a
        cases hpl : pyDictGet? table (if a = [] then ['/'] else a) with
        | none =>
          rw [hpl] at h1a
          cases h1a
        | some extA =>
          rw [hpl] at h1a
          dsimp only at h1a
          -- Traversal side: unfold the root entry and split the walk.
          unfold traverseFromRoot at h2a
          cases hroot : parseIsoDirectoryRecord
              disc.primary_volume.root_directory_record with
          | none =>
            rw [hroot] at h2a
            cases h2a
          | some rootRec =>
            rw [hroot] at h2a
            dsimp only at h2a
            cases hmk : makeEntry disc rootRec with
            | error err =>
              rw [hmk] at h2a
              cases h2a
            | ok root =>
              rw [hmk] at h2a
              dsimp only at h2a
              by_cases hdir : isoRecordIsDir root.record = false
              · rw [if_pos hdir] at h2a
                cases h2a
              · rw [if_neg hdir] at h2a
                -- Decompose the walk along parent ++ [filename].
                rw [hpab, splitSlash_append a b hnb, walk_append] at h2a
                cases hwa : walk disc root (splitSlash a) with
                | error er =>
                  rw [hwa] at h2a
                  cases h2a
                | ok pe =>
                  rw [hwa] at h2a
                  simp only [Except.bind] at h2a
                  -- Traversal of the parent table key succeeds with `pe`,
                  -- so the binding at `extA` is constrained.
                  have hdgp : discGet disc (if a = [] then ['/'] else a) false
                      = .ok pe := by
                    rw [show discGet disc (if a = [] then ['/'] else a) false =
                        traverseFromRoot disc
                          (normalizePath (if a = [] then ['/'] else a)) from rfl,
                      traverseFromRoot_normalize]
                    unfold traverseFromRoot
                    rw [hroot]
                    dsimp only
                    rw [hmk]
                    dsimp only
                    rw [if_neg hdir]
                    by_cases ha : a = []
                    · rw [if_pos ha]
                      rw [show splitSlash ['/'] = [[], []] from rfl,
                        walk_cons_nil, walk_cons_nil]
                      rw [ha] at hwa
                      rw [show splitSlash ([] : List Char) = [[]] from rfl,
                        walk_cons_nil] at hwa
                      exact hwa
                    · rw [if_neg ha]
                      exact hwa
                  have hwfb := hall (_, extA) (pyDictGet?_mem hpl)
                  obtain ⟨w, l, hw, hext, hsize, hlst, hnodup, hne⟩ :=
                    wfTableBinding_spec disc _ extA pe hdgp hwfb
                  rw [hw] at h1a
                  dsimp only at h1a
                  rw [hext, hsize, hlst] at h1a
                  dsimp only at h1a
                  have hfind := scanFirst_ok_find? l none b e1 h1a
                  have he1mem : e1 ∈ l := List.mem_of_find?_eq_some hfind
                  have he1name : e1.name = b := by
                    have hp := List.find?_some hfind
                    simpa using hp
                  have hb : b ≠ [] := by
                    intro hb0
                    apply hne e1.name (List.mem_map_of_mem _ he1mem)
                    rw [he1name, hb0]
                  rw [walk_single disc pe b hb] at h2a
                  rw [hlst] at h2a
                  dsimp only at h2a
                  cases hfm : findMatch b l with
                  | none =>
                    rw [hfm] at h2a
                    cases h2a
                  | some nxt =>
                    rw [hfm] at h2a
                    injection h2a with hn2
                    rw [findMatch_eq_find? b l hnodup, hfind] at hfm
                    injection hfm with hn1
                    rw [← hn2, ← hn1]
                    exact ⟨rfl, rfl, rfl⟩
      | none =>
        -- No slash in the normalized path: it must be empty, and the filename
        -- scan then looks for an empty name, which well-formedness rules out.
        have hnos : '/' ∉ p := rpartSlash_none_no_slash p hrp
        have hpnil : p = [] := by
          rcases normalizePath_nil_or_head_slash rawPath with hh | hh
          · exact hh
          · exfalso
            rw [← hpdef] at hh
            apply hnos
            cases hp2 : p with
            | nil =>
              rw [hp2] at hh
              cases hh
            | cons c cs =>
              rw [hp2] at hh
              simp only [List.head?_cons, Option.some.injEq] at hh
              rw [hh]
              exact List.mem_cons_self _ _
        rw [hrp] at h1a
        dsimp only at h1a
        rw [if_pos rfl] at h1a
        cases hpl : pyDictGet? table ['/'] with
        | none =>
          rw [hpl] at h1a
          cases h1a
        | some extA =>
          rw [hpl] at h1a
          dsimp only at h1a
          -- Traversal side: unfold the root entry.
          unfold traverseFromRoot at h2a
          cases hroot : parseIsoDirectoryRecord
              disc.primary_volume.root_directory_record with
          | none =>
            rw [hroot] at h2a
            cases h2a
          | some rootRec =>
            rw [hroot] at h2a
            dsimp only at h2a
            cases hmk : makeEntry disc rootRec with
            | error err =>
              rw [hmk] at h2a
              cases h2a
            | ok root =>
              rw [hmk] at h2a
              dsimp only at h2a
              by_cases hdir : isoRecordIsDir root.record = false
              · rw [if_pos hdir] at h2a
                cases h2a
              · rw [if_neg hdir] at h2a
                have hdgp : discGet disc ['/'] false = .ok e2 := by
                  rw [show discGet disc ['/'] false =
                      traverseFromRoot disc (normalizePath ['/']) from rfl,
                    traverseFromRoot_normalize]
                  unfold traverseFromRoot
                  rw [hroot]
                  dsimp only
                  rw [hmk]
                  dsimp only
                  rw [if_neg hdir]
                  rw [show splitSlash ['/'] = [[], []] from rfl,
                    walk_cons_nil, walk_cons_nil]
                  rw [hpnil] at h2a
                  rw [show splitSlash ([] : List Char) = [[]] from rfl,
                    walk_cons_nil] at h2a
                  exact h2a
                have hwfb := hall (['/'], extA) (pyDictGet?_mem hpl)
                obtain ⟨w, l, hw, hext, hsize, hlst, hnodup, hne⟩ :=
                  wfTableBinding_spec disc _ extA e2 hdgp hwfb
                rw [hw] at h1a
                dsimp only at h1a
                rw [hext, hsize, hlst] at h1a
                dsimp only at h1a
                have hfind := scanFirst_ok_find? l none p e1 h1a
                have he1mem : e1 ∈ l := List.mem_of_find?_eq_some hfind
                have he1name : e1.name = p := by
                  have hp := List.find?_some hfind
                  simpa using hp
                exfalso
                apply hne e1.name (List.mem_map_of_mem _ he1mem)
                rw [he1name, hpnil]

set_option maxRecDepth 10000

/-- C4 witness: on the concrete Rock Ridge witness image, looking up `/D`
through the path table (which only knows the subdirectory's ISO 9660 name
`X`, forcing the parent-directory scan) and by traversal both return the
subdirectory entry carrying its `NM` name, and the theorem yields the
equal extent, size and byte range. -/
theorem c4_path_table_equivalence_witness :
    wfDisc c4Disc = true
    ∧ discGet c4Disc c4Path true = .ok c4LookupEntry
    ∧ discGet c4Disc c4Path false = .ok c4LookupEntry
    ∧ (c4LookupEntry.record.extent = c4LookupEntry.record.extent
        ∧ c4LookupEntry.record.size = c4LookupEntry.record.size
        ∧ entryOpenBytes c4Disc c4LookupEntry =
            entryOpenBytes c4Disc c4LookupEntry) :=
  ⟨by decide, by decide, by decide,
    c4_path_table_equivalence c4Disc c4Path c4LookupEntry c4LookupEntry
      (by decide) (by decide) (by decide)⟩

end DissectDisc
